import Mathlib

/-!
Verification development for a repository holding two small Streamlit
applications: `app.py`, a PDF field-signing tool (render pages, draw a
signature per field, composite a preview, stamp the signatures into the
PDF, upload), and `streamlit_app.py`, a CSV analytics dashboard.

The functions relevant to the stated claims are shallowly embedded below.
Machine reals of the Python source (coordinates, zoom factors) are
modelled as rationals; Python `int()` is truncation toward zero; external
library operations (PIL image compositing/resizing, PyMuPDF page access
and image embedding, pandas column handling) are modelled as free
constructors or explicit operation lists so that what the code asks the
library to do is recorded exactly.
-/

namespace App

/-- Python `int()` on a rational value: truncation toward zero
(`int(64.9) = 64`, `int(-64.9) = -64`).  This is the conversion the
source applies in `composited_page_image` (lines 200-203 of `app.py`)
and in the canvas sizing (lines 225-226). -/
def pytrunc (q : ℚ) : ℤ := if 0 ≤ q then ⌊q⌋ else ⌈q⌉

/-- A field descriptor, from the `FIELDS` table of `app.py` (lines 24-31):
`key`, `label`, 1-based `page`, and the rectangle `x, y, w, h` in document
points with origin at the bottom-left. -/
structure Field where
  key : String
  label : String
  page : ℕ
  x : ℚ
  y : ℚ
  w : ℚ
  h : ℚ
deriving DecidableEq

/-- The static field registry of `app.py` lines 24-31. -/
def FIELDS : List Field := [
  ⟨"name",    "이름",     1, 482, 479, 59,  41⟩,
  ⟨"phone",   "전화번호", 1, 120, 630, 260, 40⟩,
  ⟨"birth",   "생년월일", 1, 120, 580, 260, 40⟩,
  ⟨"userid",  "아이디",   1, 120, 530, 220, 40⟩,
  ⟨"consent", "동의",     1, 120, 120, 120, 40⟩,
  ⟨"sign",    "서명",     1, 380, 360, 220, 60⟩]

/-- PNG byte strings.  PNG encoding of an RGBA pixel array
(`rgba_numpy_to_png_bytes`) is an external PIL call; it is modelled as a
free constructor, alongside opaque raw byte strings. -/
inductive PngBytes where
  | encodeRGBA (pixels : List (ℕ × ℕ × ℕ × ℕ)) : PngBytes
  | raw (s : String) : PngBytes
deriving DecidableEq

/-- The RGBA pixel array returned by the drawing canvas
(`canvas.image_data`), one `(r, g, b, a)` quadruple per pixel. -/
abbrev Raster := List (ℕ × ℕ × ℕ × ℕ)

/-- `rgba_numpy_to_png_bytes` (lines 81-85 of `app.py`): PIL PNG encoding
of an RGBA array, modelled as the free constructor. -/
def rgba_numpy_to_png_bytes (arr : Raster) : PngBytes :=
  PngBytes.encodeRGBA arr

/-- PIL images as the operations the source performs on them: a decoded
base page image, a decoded PNG, `Image.resize`, and `alpha_composite` at
a pixel offset. -/
inductive Image where
  | base (b64 : String) : Image
  | ofPng (png : PngBytes) : Image
  | resized (src : Image) (w h : ℤ) : Image
  | composited (bg fg : Image) (x y : ℤ) : Image
deriving DecidableEq

/-- One rendered page record, as built by `render_all_pages_b64`
(lines 60-79 of `app.py`): page number, base64 page raster, page height in
points, and the zoom used.  (The pixel width/height and `w_pt` are not
needed by any claim and are omitted.) -/
structure PageInfo where
  page : ℕ
  b64 : String
  h_pt : ℚ
  zoom : ℚ
deriving DecidableEq

/-- The capture mapping `values_png` (`{key: PNG bytes}`), modelled as an
association list. -/
abbrev Values := List (String × PngBytes)

/-- Python `dict` lookup `values[key]` / `key in values`. -/
def lookupVal : Values → String → Option PngBytes
  | [], _ => none
  | (k2, v) :: rest, k => if k2 = k then some v else lookupVal rest k

/-- Python `dict` assignment `values[key] = v`: overwrite an existing
entry, or append a new one. -/
def insertVal : Values → String → PngBytes → Values
  | [], k, v => [(k, v)]
  | (k2, v2) :: rest, k, v =>
    if k2 = k then (k, v) :: rest else (k2, v2) :: insertVal rest k v

/-- `dom_x = int(f["x"] * scale)` (`app.py` line 200). -/
def dom_x (f : Field) (scale : ℚ) : ℤ := pytrunc (f.x * scale)

/-- `dom_y = int((pinfo["h_pt"] - f["y"] - f["h"]) * scale)`
(`app.py` line 201): the bottom-left to top-left flip. -/
def dom_y (f : Field) (h_pt scale : ℚ) : ℤ := pytrunc ((h_pt - f.y - f.h) * scale)

/-- `dom_w = int(f["w"] * scale)` (`app.py` line 202). -/
def dom_w (f : Field) (scale : ℚ) : ℤ := pytrunc (f.w * scale)

/-- `dom_h = int(f["h"] * scale)` (`app.py` line 203). -/
def dom_h (f : Field) (scale : ℚ) : ℤ := pytrunc (f.h * scale)

/-- The body of the `for f in FIELDS` loop of `composited_page_image`
(`app.py` lines 193-205): skip a field on another page, skip a field with
no captured signature, otherwise resize the captured PNG to the field's
pixel size and alpha-composite it onto the accumulated image at the
computed pixel offset. -/
def compStep (values : Values) (pinfo : PageInfo) (acc : Image) (f : Field) : Image :=
  if f.page ≠ pinfo.page then acc
  else
    match lookupVal values f.key with
    | none => acc
    | some png =>
      Image.composited acc
        (Image.resized (Image.ofPng png) (dom_w f pinfo.zoom) (dom_h f pinfo.zoom))
        (dom_x f pinfo.zoom) (dom_y f pinfo.h_pt pinfo.zoom)

/-- `composited_page_image` (`app.py` lines 190-206): fold the per-field
overlay step over the field registry, starting from the decoded base page
raster. -/
def composited_page_image (values : Values) (pinfo : PageInfo) : Image :=
  FIELDS.foldl (compStep values pinfo) (Image.base pinfo.b64)

/-- The capture-canvas width `dom_w = max(120, int(f["w"] * scale))`
(`app.py` line 225; the source reuses the name `dom_w` for this local). -/
def canvas_dom_w (f : Field) (scale : ℚ) : ℤ := max 120 (pytrunc (f.w * scale))

/-- The capture-canvas height `dom_h = max(40, int(f["h"] * scale))`
(`app.py` line 226). -/
def canvas_dom_h (f : Field) (scale : ℚ) : ℤ := max 40 (pytrunc (f.h * scale))

/-- The pixel-x formula exactly as the spec section 4.1 states it:
`pixel_x = round(field.x * s)`.  Kept separate from the source-derived
`dom_x` so the two can be compared.  (Lean `round` is round-half-up,
Python `round` rounds half to even; no input considered below lands on a
half, so the two agree wherever this definition is used.) -/
def specPixelX (x s : ℚ) : ℤ := round (x * s)

/-- Spec section 4.1: `pixel_y = round((H - field.y - field.h) * s)`. -/
def specPixelY (y h H s : ℚ) : ℤ := round ((H - y - h) * s)

/-- Spec section 4.1: `pixel_w = round(field.w * s)`. -/
def specPixelW (w s : ℚ) : ℤ := round (w * s)

/-- Spec section 4.1: `pixel_h = round(field.h * s)`. -/
def specPixelH (h s : ℚ) : ℤ := round (h * s)

/-- One `page.insert_image(rect, stream=..., keep_proportion=False)` call
as issued by `stamp_multiple_into_pdf` (`app.py` line 99): the 0-based
page index the call lands on, the destination rectangle
`fitz.Rect(x0, y0, x1, y1)` in document points, the PNG stream, and the
`keep_proportion` flag. -/
structure StampOp where
  pageIdx : ℕ
  x0 : ℚ
  y0 : ℚ
  x1 : ℚ
  y1 : ℚ
  stream : PngBytes
  keepProp : Bool
deriving DecidableEq

/-- PyMuPDF page access `doc[i]` (`app.py` line 97): valid for
`-numPages ≤ i < numPages`, a negative index counting from the end;
any other index raises. -/
def loadPage (numPages : ℕ) (i : ℤ) : Except Unit ℕ :=
  if 0 ≤ i ∧ i < (numPages : ℤ) then .ok i.toNat
  else if -(numPages : ℤ) ≤ i ∧ i < 0 then .ok ((numPages : ℤ) + i).toNat
  else .error ()

/-- The `for f in fields` loop of `stamp_multiple_into_pdf`
(`app.py` lines 93-99), collecting the `insert_image` calls in order:
skip a field whose key has no captured PNG; otherwise open the page
`doc[f["page"] - 1]` (which may raise) and insert the PNG into
`fitz.Rect(x, y, x + w, y + h)` with `keep_proportion=False`. -/
def stampFold (values : Values) (numPages : ℕ) : List Field → Except Unit (List StampOp)
  | [] => .ok []
  | f :: fs =>
    match lookupVal values f.key with
    | none => stampFold values numPages fs
    | some png =>
      match loadPage numPages ((f.page : ℤ) - 1) with
      | .error e => .error e
      | .ok idx =>
        match stampFold values numPages fs with
        | .error e => .error e
        | .ok rest =>
          .ok (⟨idx, f.x, f.y, f.x + f.w, f.y + f.h, png, false⟩ :: rest)

/-- The document returned by `doc.write()`: the original source bytes the
document was opened from together with the embed operations applied to
it.  Its rendered content equals the original document's exactly when no
operation was applied. -/
structure OutDoc where
  src : String
  ops : List StampOp
deriving DecidableEq

/-- `stamp_multiple_into_pdf` (`app.py` lines 90-102): open a fresh
document from the original bytes, run the per-field embed loop, and
return the written result; an exception anywhere in the loop propagates
and no document is returned. -/
def stamp_multiple_into_pdf (numPages : ℕ) (original : String) (values : Values)
    (fields : List Field) : Except Unit OutDoc :=
  match stampFold values numPages fields with
  | .error e => .error e
  | .ok ops => .ok ⟨original, ops⟩

/-- The session state touched by the final-processing handler:
`st.session_state.pdf_bytes` and `st.session_state.values_png`. -/
structure Session where
  pdf_bytes : Option String
  values_png : Values
deriving DecidableEq

/-- The per-field apply-button handler (`app.py` lines 241-248): if
`canvas.image_data is None` warn and leave the mapping unchanged
(returns `false`); otherwise PNG-encode the RGBA array, store it under
the field key, and report success (returns `true`). -/
def applyHandler (imageData : Option Raster) (key : String) (values : Values) :
    Values × Bool :=
  match imageData with
  | none => (values, false)
  | some arr => (insertVal values key (rgba_numpy_to_png_bytes arr), true)

/-- The upload-button handler (`app.py` lines 262-276) up to the point a
stamped document exists: error out (returning the session unchanged and
no document) when no PDF is loaded or no signature is applied; otherwise
run `stamp_multiple_into_pdf` on the session's bytes and mapping, and on
an exception show the error and stop, the session unchanged and no
document produced. -/
def uploadHandler (sess : Session) (numPages : ℕ) : Session × Option OutDoc :=
  match sess.pdf_bytes with
  | none => (sess, none)
  | some original =>
    if sess.values_png = [] then (sess, none)
    else
      match stamp_multiple_into_pdf numPages original sess.values_png FIELDS with
      | .error _ => (sess, none)
      | .ok out => (sess, some out)

/-- A parsed date, with the `.dt.month` accessor as a projection.  Date
parsing itself (`pd.to_datetime`) is an external pandas call and is a
parameter of `load_data` below. -/
structure Date where
  year : ℕ
  month : ℕ
  day : ℕ
deriving DecidableEq

/-- One raw CSV row of `streamlit_app.py`, restricted to the four columns
`load_data` touches: 날짜 (date), 담당자 (manager), 보호구분 (protection
class), 상담유형 (counsel type).  `none` models a missing (NaN) cell. -/
structure RawRow where
  date : Option String
  manager : Option String
  protect : Option String
  counsel : Option String
deriving DecidableEq

/-- One row of the frame `load_data` returns: the parsed 날짜, the derived
월 column, and the three filled columns (still optional-valued, as
`fillna` keeps the column shape and only replaces missing cells). -/
structure OutRow where
  date : Date
  month : ℕ
  manager : Option String
  protect : Option String
  counsel : Option String
deriving DecidableEq

/-- The per-row effect of `load_data`'s row pipeline: a row whose 날짜 is
missing or fails to parse is dropped (`errors='coerce'` then
`dropna(subset=['날짜'])`); a surviving row gets `월 = 날짜.dt.month` and
`fillna('미지정')` / `fillna('정보없음')` on the three label columns. -/
def cleanRow (parse : String → Option Date) (r : RawRow) : Option OutRow :=
  match r.date with
  | none => none
  | some s =>
    match parse s with
    | none => none
    | some d =>
      some ⟨d, d.month,
        (match r.manager with | none => some "미지정" | some v => some v),
        (match r.protect with | none => some "정보없음" | some v => some v),
        (match r.counsel with | none => some "정보없음" | some v => some v)⟩

/-- `load_data` (`streamlit_app.py` lines 14-34).  `df.dropna(axis=1,
how='all')` removes any column whose raw cells are all missing; a later
access to a removed column (`df['날짜']`, `df['담당자'].fillna`, ...)
then raises a `KeyError` out of `load_data`, modelled as `.error ()`.
Otherwise the row pipeline of `cleanRow` runs over every row. -/
def load_data (parse : String → Option Date) (rows : List RawRow) :
    Except Unit (List OutRow) :=
  if rows.all (fun r => r.date = none) then .error ()
  else if rows.all (fun r => r.manager = none) then .error ()
  else if rows.all (fun r => r.protect = none) then .error ()
  else if rows.all (fun r => r.counsel = none) then .error ()
  else .ok (rows.filterMap (cleanRow parse))

/-! Helper lemmas. -/

/-- Looking up the key just assigned returns the assigned value. -/
theorem lookupVal_insertVal (values : Values) (k : String) (v : PngBytes) :
    lookupVal (insertVal values k v) k = some v := by
  induction values with
  | nil => simp [insertVal, lookupVal]
  | cons p rest ih =>
    obtain ⟨k2, v2⟩ := p
    by_cases h : k2 = k
    · simp [insertVal, h, lookupVal]
    · simp [insertVal, h, lookupVal, ih]

/-- Assigning under one key leaves every other key's lookup unchanged. -/
theorem lookupVal_insertVal_ne (values : Values) (k k2 : String) (v : PngBytes)
    (h : k2 ≠ k) : lookupVal (insertVal values k v) k2 = lookupVal values k2 := by
  induction values with
  | nil => simp [insertVal, lookupVal, Ne.symm h]
  | cons p rest ih =>
    obtain ⟨k3, v3⟩ := p
    by_cases h3 : k3 = k
    · subst h3
      simp [insertVal, lookupVal, Ne.symm h]
    · simp [insertVal, h3, lookupVal, ih]

/-- Truncation toward zero moves a rational by strictly less than 1. -/
theorem abs_pytrunc_sub_lt (q : ℚ) : |(pytrunc q : ℚ) - q| < 1 := by
  unfold pytrunc
  by_cases h : 0 ≤ q
  · rw [if_pos h, abs_lt]
    constructor
    · have := Int.lt_floor_add_one q
      linarith
    · have := Int.floor_le q
      linarith
  · rw [if_neg h, abs_lt]
    constructor
    · have := Int.le_ceil q
      linarith
    · have := Int.ceil_lt_add_one q
      linarith

/-- Truncating `a * s` and dividing back by `s > 0` lands within `1 / s`
of `a`. -/
theorem abs_pytrunc_div_sub_lt (a s : ℚ) (hs : 0 < s) :
    |(pytrunc (a * s) : ℚ) / s - a| < 1 / s := by
  have h1 := abs_pytrunc_sub_lt (a * s)
  have hrw : (pytrunc (a * s) : ℚ) / s - a = ((pytrunc (a * s) : ℚ) - a * s) / s := by
    field_simp
    ring
  rw [hrw, abs_div, abs_of_pos hs]
  exact (div_lt_div_iff_of_pos_right hs).mpr h1

/-- The compositor's per-field step only consults the mapping at the
field's own key. -/
theorem compStep_congr (values values2 : Values) (pinfo : PageInfo) (acc : Image)
    (f : Field) (h : lookupVal values f.key = lookupVal values2 f.key) :
    compStep values pinfo acc f = compStep values2 pinfo acc f := by
  unfold compStep
  rw [h]

/-- The whole compositor fold only consults the mapping at the keys of
the fields it walks. -/
theorem foldl_compStep_congr (values values2 : Values) (pinfo : PageInfo)
    (fields : List Field)
    (h : ∀ f ∈ fields, lookupVal values f.key = lookupVal values2 f.key) :
    ∀ acc : Image,
      fields.foldl (compStep values pinfo) acc = fields.foldl (compStep values2 pinfo) acc := by
  induction fields with
  | nil => intro acc; rfl
  | cons g gs ih =>
    intro acc
    rw [List.foldl_cons, List.foldl_cons,
      compStep_congr values values2 pinfo acc g (h g (List.mem_cons_self g gs))]
    exact ih (fun f hf => h f (List.mem_cons_of_mem g hf)) _

/-- The stamping loop only consults the mapping at the keys of the fields
it walks. -/
theorem stampFold_congr (values values2 : Values) (numPages : ℕ) (fields : List Field)
    (h : ∀ f ∈ fields, lookupVal values f.key = lookupVal values2 f.key) :
    stampFold values numPages fields = stampFold values2 numPages fields := by
  induction fields with
  | nil => rfl
  | cons g gs ih =>
    have hg := h g (List.mem_cons_self g gs)
    have ihg := ih (fun f hf => h f (List.mem_cons_of_mem g hf))
    unfold stampFold
    rw [hg, ihg]

/-- A compositor step over the empty mapping leaves the image alone. -/
theorem compStep_nil (pinfo : PageInfo) (acc : Image) (f : Field) :
    compStep [] pinfo acc f = acc := by
  unfold compStep lookupVal
  split <;> rfl

/-- The stamping loop over the empty mapping issues no operation. -/
theorem stampFold_nil (numPages : ℕ) (fields : List Field) :
    stampFold [] numPages fields = .ok [] := by
  induction fields with
  | nil => rfl
  | cons g gs ih =>
    unfold stampFold lookupVal
    exact ih

/-- A successful `doc[p - 1]` access with a 1-based `p ≥ 1` lands on the
0-based index `p - 1`. -/
theorem loadPage_ok_of_one_based (numPages p idx : ℕ) (hp : 1 ≤ p)
    (h : loadPage numPages ((p : ℤ) - 1) = .ok idx) : idx = p - 1 := by
  unfold loadPage at h
  by_cases h1 : (0 : ℤ) ≤ (p : ℤ) - 1 ∧ (p : ℤ) - 1 < (numPages : ℤ)
  · rw [if_pos h1] at h
    simp only [Except.ok.injEq] at h
    omega
  · rw [if_neg h1] at h
    have h2 : ¬(-(numPages : ℤ) ≤ (p : ℤ) - 1 ∧ (p : ℤ) - 1 < 0) := by omega
    rw [if_neg h2] at h
    simp at h

/-- Every field of the walked list whose key is captured contributes, to
a successful stamping run, the `insert_image` call at its own rectangle
`(x, y, x + w, y + h)`, with its PNG, on 0-based page `page - 1`, with
`keep_proportion=False`. -/
theorem stampFold_mem (values : Values) (numPages : ℕ) (fields : List Field)
    (ops : List StampOp) (hok : stampFold values numPages fields = .ok ops)
    (f : Field) (hf : f ∈ fields) (png : PngBytes)
    (hkey : lookupVal values f.key = some png) (hpage : 1 ≤ f.page) :
    StampOp.mk (f.page - 1) f.x f.y (f.x + f.w) (f.y + f.h) png false ∈ ops := by
  induction fields generalizing ops with
  | nil => cases hf
  | cons g gs ih =>
    rcases List.mem_cons.mp hf with hfg | hmem
    · subst hfg
      unfold stampFold at hok
      rw [hkey] at hok
      cases hLoad : loadPage numPages ((f.page : ℤ) - 1) with
      | error e =>
        rw [hLoad] at hok
        simp at hok
      | ok idx =>
        rw [hLoad] at hok
        cases hRest : stampFold values numPages gs with
        | error e =>
          rw [hRest] at hok
          simp at hok
        | ok rest =>
          rw [hRest] at hok
          simp only [Except.ok.injEq] at hok
          subst hok
          have hidx := loadPage_ok_of_one_based numPages f.page idx hpage hLoad
          subst hidx
          exact List.mem_cons_self _ _
    · unfold stampFold at hok
      cases hG : lookupVal values g.key with
      | none =>
        rw [hG] at hok
        exact ih ops hok hmem
      | some pngG =>
        rw [hG] at hok
        cases hLoad : loadPage numPages ((g.page : ℤ) - 1) with
        | error e =>
          rw [hLoad] at hok
          simp at hok
        | ok idx =>
          rw [hLoad] at hok
          cases hRest : stampFold values numPages gs with
          | error e =>
            rw [hRest] at hok
            simp at hok
          | ok rest =>
            rw [hRest] at hok
            simp only [Except.ok.injEq] at hok
            subst hok
            exact List.mem_cons_of_mem _ (ih rest hRest hmem)

/-! Claim theorems. -/

/-- C5: for the Field `{key:"name", page:1, x:482, y:479, w:59, h:41}`,
page height 842 document units, and scale 2.0, the coordinate transform
of the preview compositor yields the pixel rectangle
x:964, y:644, w:118, h:82: compositing a capture for `"name"` onto page 1
resizes it to 118 by 82 pixels and pastes it at pixel offset (964, 644). -/
theorem C5_name_field_pixel_rect :
    composited_page_image [("name", PngBytes.raw "sig")] ⟨1, "bg", 842, 2⟩ =
      Image.composited (Image.base "bg")
        (Image.resized (Image.ofPng (PngBytes.raw "sig")) 118 82) 964 644 := by
  simp only [composited_page_image, FIELDS, List.foldl, compStep, lookupVal,
    dom_x, dom_y, dom_w, dom_h]
  norm_num [pytrunc]
  decide

/-- C1 fails as stated: the compositor truncates with Python `int()`, it
does not round.  At scale 11/10 the `"name"` field (w = 59) is drawn 64
pixels wide where the spec formula `pixel_w = round(field.w * s)` gives
65 (59 * 1.1 = 64.9). -/
theorem C1_counterexample :
    composited_page_image [("name", PngBytes.raw "sig")] ⟨1, "bg", 842, 11/10⟩ =
      Image.composited (Image.base "bg")
        (Image.resized (Image.ofPng (PngBytes.raw "sig")) 64 45) 530 354 ∧
    specPixelX 482 (11/10) = 530 ∧ specPixelY 479 41 842 (11/10) = 354 ∧
    specPixelW 59 (11/10) = 65 ∧ specPixelH 41 (11/10) = 45 := by
  constructor
  · simp only [composited_page_image, FIELDS, List.foldl, compStep, lookupVal,
      dom_x, dom_y, dom_w, dom_h]
    norm_num [pytrunc]
    decide
  · norm_num [specPixelX, specPixelY, specPixelW, specPixelH, round_eq]

/-- C1 (amended): the preview compositor computes the overlay's pixel
rectangle with Python `int()` truncation toward zero instead of `round`:
`pixel_x = int(x * s)`, `pixel_y = int((H - y - h) * s)`,
`pixel_w = int(w * s)`, `pixel_h = int(h * s)`; the resize-and-paste step
for a field on the displayed page whose key is captured uses exactly that
rectangle. -/
theorem C1_amended_truncated_transform (values : Values) (pinfo : PageInfo)
    (acc : Image) (f : Field) (png : PngBytes) (hpage : f.page = pinfo.page)
    (hkey : lookupVal values f.key = some png) :
    compStep values pinfo acc f =
      Image.composited acc
        (Image.resized (Image.ofPng png)
          (pytrunc (f.w * pinfo.zoom)) (pytrunc (f.h * pinfo.zoom)))
        (pytrunc (f.x * pinfo.zoom))
        (pytrunc ((pinfo.h_pt - f.y - f.h) * pinfo.zoom)) := by
  unfold compStep
  rw [hkey]
  simp [hpage, dom_x, dom_y, dom_w, dom_h]

/-- Witness for the amended C1 at the `"name"` field, zoom 2, page
height 842. -/
theorem C1_amended_truncated_transform_witness :
    (⟨"name", "이름", 1, 482, 479, 59, 41⟩ : Field).page = (⟨1, "bg", 842, 2⟩ : PageInfo).page ∧
    lookupVal [("name", PngBytes.raw "sig")] (⟨"name", "이름", 1, 482, 479, 59, 41⟩ : Field).key =
      some (PngBytes.raw "sig") ∧
    compStep [("name", PngBytes.raw "sig")] ⟨1, "bg", 842, 2⟩ (Image.base "bg")
        ⟨"name", "이름", 1, 482, 479, 59, 41⟩ =
      Image.composited (Image.base "bg")
        (Image.resized (Image.ofPng (PngBytes.raw "sig"))
          (pytrunc ((59 : ℚ) * 2)) (pytrunc ((41 : ℚ) * 2)))
        (pytrunc ((482 : ℚ) * 2)) (pytrunc (((842 : ℚ) - 479 - 41) * 2)) :=
  ⟨rfl, rfl,
    C1_amended_truncated_transform [("name", PngBytes.raw "sig")] ⟨1, "bg", 842, 2⟩
      (Image.base "bg") ⟨"name", "이름", 1, 482, 479, 59, 41⟩ (PngBytes.raw "sig") rfl rfl⟩

/-- C9 fails as stated: the on-screen capture canvas is not sized by the
overlay transform.  The source clamps it from below,
`max(120, int(w * scale))` by `max(40, int(h * scale))`: at zoom 2 the
`"name"` field's canvas is 120 pixels wide while the overlay (and the
spec formula `round(w * s)`) gives 118. -/
theorem C9_counterexample :
    canvas_dom_w ⟨"name", "이름", 1, 482, 479, 59, 41⟩ 2 = 120 ∧
    specPixelW 59 2 = 118 ∧
    dom_w ⟨"name", "이름", 1, 482, 479, 59, 41⟩ 2 = 118 := by
  refine ⟨?_, ?_, ?_⟩
  · norm_num [canvas_dom_w, pytrunc]
  · norm_num [specPixelW, round_eq]
  · norm_num [dom_w, pytrunc]

/-- C9 (amended): the capture canvas is sized from the same truncating
transform as the overlay, but clamped from below to 120 by 40 pixels:
width `max(120, int(w * s))`, height `max(40, int(h * s))`.  The canvas
is therefore always at least as large as the field's overlay rectangle
and equals it whenever the overlay is at least 120 by 40 pixels. -/
theorem C9_amended_canvas_clamped (f : Field) (s : ℚ) :
    canvas_dom_w f s = max 120 (dom_w f s) ∧
    canvas_dom_h f s = max 40 (dom_h f s) ∧
    dom_w f s ≤ canvas_dom_w f s ∧ dom_h f s ≤ canvas_dom_h f s := by
  refine ⟨rfl, rfl, ?_, ?_⟩
  · exact le_max_right _ _
  · exact le_max_right _ _

/-- C2: on a successful stamping run, every field whose key is present in
the capture mapping contributes an embed whose destination rectangle is
`(x, y, x + w, y + h)` directly in document units (no top-left flip),
placed on the page opened at the field's 1-based page number (0-based
index `page - 1`), with the captured raster stretched to fill the
rectangle (`keep_proportion=False`). -/
theorem C2_stamp_rect_page_stretch (numPages : ℕ) (original : String)
    (values : Values) (fields : List Field) (out : OutDoc)
    (hok : stamp_multiple_into_pdf numPages original values fields = .ok out)
    (f : Field) (hf : f ∈ fields) (png : PngBytes)
    (hkey : lookupVal values f.key = some png) (hpage : 1 ≤ f.page) :
    StampOp.mk (f.page - 1) f.x f.y (f.x + f.w) (f.y + f.h) png false ∈ out.ops := by
  unfold stamp_multiple_into_pdf at hok
  cases hFold : stampFold values numPages fields with
  | error e =>
    rw [hFold] at hok
    simp at hok
  | ok ops =>
    rw [hFold] at hok
    simp only [Except.ok.injEq] at hok
    subst hok
    exact stampFold_mem values numPages fields ops hFold f hf png hkey hpage

/-- Witness for C2: stamping a one-page document with a capture for
`"name"` embeds it at `(482, 479, 541, 520)` on page index 0. -/
theorem C2_stamp_rect_page_stretch_witness :
    stamp_multiple_into_pdf 1 "doc" [("name", PngBytes.raw "sig")] FIELDS =
      .ok ⟨"doc", [⟨0, 482, 479, 482 + 59, 479 + 41, PngBytes.raw "sig", false⟩]⟩ ∧
    (⟨"name", "이름", 1, 482, 479, 59, 41⟩ : Field) ∈ FIELDS ∧
    lookupVal [("name", PngBytes.raw "sig")] "name" = some (PngBytes.raw "sig") ∧
    1 ≤ 1 ∧
    StampOp.mk (1 - 1) 482 479 (482 + 59) (479 + 41) (PngBytes.raw "sig") false ∈
      (OutDoc.mk "doc" [⟨0, 482, 479, 482 + 59, 479 + 41, PngBytes.raw "sig", false⟩]).ops :=
  ⟨rfl,
   by simp [FIELDS],
   rfl, le_refl 1,
   C2_stamp_rect_page_stretch 1 "doc" [("name", PngBytes.raw "sig")] FIELDS
     ⟨"doc", [⟨0, 482, 479, 482 + 59, 479 + 41, PngBytes.raw "sig", false⟩]⟩
     rfl
     ⟨"name", "이름", 1, 482, 479, 59, 41⟩ (by simp [FIELDS]) (PngBytes.raw "sig") rfl
     (le_refl 1)⟩

/-- C3 fails as stated: the apply-button handler does not validate that
the raster is non-empty.  Confirming a blank, fully transparent,
unmodified drawing surface (an all-zero RGBA array, which the canvas
returns as a non-`None` value) for key `"sign"` is reported as a success
and stores the blank capture in the mapping. -/
theorem C3_counterexample :
    (applyHandler (some (List.replicate 9 (0, 0, 0, 0))) "sign" []).2 = true ∧
    lookupVal (applyHandler (some (List.replicate 9 (0, 0, 0, 0))) "sign" []).1 "sign" =
      some (PngBytes.encodeRGBA (List.replicate 9 (0, 0, 0, 0))) := by
  exact ⟨rfl, rfl⟩

/-- C3 (amended): confirming a capture only checks that the drawing
surface returned image data at all: a `None` canvas value fails
(signalling a warning, the mapping unchanged), while any returned RGBA
array — including a blank, fully transparent, unmodified surface — is
PNG-encoded, reported as a success, and stored (overwriting any previous
entry) under the field's key. -/
theorem C3_amended_none_check_only (arr : Raster) (key : String) (values : Values) :
    applyHandler none key values = (values, false) ∧
    (applyHandler (some arr) key values).2 = true ∧
    lookupVal (applyHandler (some arr) key values).1 key =
      some (PngBytes.encodeRGBA arr) := by
  refine ⟨rfl, rfl, ?_⟩
  simp only [applyHandler, rgba_numpy_to_png_bytes]
  exact lookupVal_insertVal values key (PngBytes.encodeRGBA arr)

/-- C4: if stamping fails, the upload handler produces no document and
the session (the original document bytes and the capture mapping) is
exactly its pre-operation state. -/
theorem C4_atomic_failure (sess : Session) (numPages : ℕ) (original : String)
    (hsrc : sess.pdf_bytes = some original)
    (hfail : stamp_multiple_into_pdf numPages original sess.values_png FIELDS =
      .error ()) :
    uploadHandler sess numPages = (sess, none) := by
  obtain ⟨pb, vals⟩ := sess
  simp only [Session.pdf_bytes] at hsrc
  subst hsrc
  simp only [Session.values_png] at hfail
  unfold uploadHandler
  by_cases hv : vals = []
  · simp [hv]
  · simp only [Session.pdf_bytes, Session.values_png]
    rw [if_neg hv, hfail]

/-- Witness for C4: a session holding a capture for `"name"` stamped into
a zero-page document fails (page access raises) and the handler returns
the session unchanged with no output document. -/
theorem C4_atomic_failure_witness :
    (Session.mk (some "doc") [("name", PngBytes.encodeRGBA [])]).pdf_bytes = some "doc" ∧
    stamp_multiple_into_pdf 0 "doc"
      (Session.mk (some "doc") [("name", PngBytes.encodeRGBA [])]).values_png FIELDS =
      .error () ∧
    uploadHandler (Session.mk (some "doc") [("name", PngBytes.encodeRGBA [])]) 0 =
      (Session.mk (some "doc") [("name", PngBytes.encodeRGBA [])], none) :=
  ⟨rfl, rfl,
   C4_atomic_failure (Session.mk (some "doc") [("name", PngBytes.encodeRGBA [])]) 0 "doc"
     rfl rfl⟩

/-- C6: transforming a field rectangle to pixels (as the compositor does)
and converting the pixel rectangle back to document units with the same
page height and scale recovers the original rectangle within rounding
tolerance: each truncation contributes strictly less than one pixel, i.e.
less than `1 / s` document units (the y origin-flip inverts through both
`pixel_y` and `pixel_h`, so its tolerance is `2 / s`). -/
theorem C6_roundtrip (f : Field) (H s : ℚ) (hs : 0 < s) :
    |(dom_x f s : ℚ) / s - f.x| < 1 / s ∧
    |(dom_w f s : ℚ) / s - f.w| < 1 / s ∧
    |(dom_h f s : ℚ) / s - f.h| < 1 / s ∧
    |(H - ((dom_y f H s : ℚ) + (dom_h f s : ℚ)) / s) - f.y| < 2 / s := by
  refine ⟨abs_pytrunc_div_sub_lt f.x s hs, abs_pytrunc_div_sub_lt f.w s hs,
    abs_pytrunc_div_sub_lt f.h s hs, ?_⟩
  have hA := abs_pytrunc_sub_lt ((H - f.y - f.h) * s)
  have hB := abs_pytrunc_sub_lt (f.h * s)
  have hA2 : |(H - f.y - f.h) * s - (dom_y f H s : ℚ)| < 1 := by
    rw [abs_sub_comm]
    exact hA
  have hB2 : |f.h * s - (dom_h f s : ℚ)| < 1 := by
    rw [abs_sub_comm]
    exact hB
  have hrw : H - ((dom_y f H s : ℚ) + (dom_h f s : ℚ)) / s - f.y =
      (((H - f.y - f.h) * s - (dom_y f H s : ℚ)) + (f.h * s - (dom_h f s : ℚ))) / s := by
    field_simp
    ring
  rw [hrw, abs_div, abs_of_pos hs]
  have htri := abs_add ((H - f.y - f.h) * s - (dom_y f H s : ℚ))
    (f.h * s - (dom_h f s : ℚ))
  have hsum : |((H - f.y - f.h) * s - (dom_y f H s : ℚ)) +
      (f.h * s - (dom_h f s : ℚ))| < 2 := by linarith
  exact (div_lt_div_iff_of_pos_right hs).mpr hsum

/-- Witness for C6 at the `"name"` field, page height 842, scale 2. -/
theorem C6_roundtrip_witness :
    (0 : ℚ) < 2 ∧
    (|(dom_x ⟨"name", "이름", 1, 482, 479, 59, 41⟩ 2 : ℚ) / 2 - 482| < 1 / 2 ∧
     |(dom_w ⟨"name", "이름", 1, 482, 479, 59, 41⟩ 2 : ℚ) / 2 - 59| < 1 / 2 ∧
     |(dom_h ⟨"name", "이름", 1, 482, 479, 59, 41⟩ 2 : ℚ) / 2 - 41| < 1 / 2 ∧
     |((842 : ℚ) - ((dom_y ⟨"name", "이름", 1, 482, 479, 59, 41⟩ 842 2 : ℚ) +
         (dom_h ⟨"name", "이름", 1, 482, 479, 59, 41⟩ 2 : ℚ)) / 2) - 479| < 2 / 2) :=
  ⟨by norm_num, C6_roundtrip ⟨"name", "이름", 1, 482, 479, 59, 41⟩ 842 2 (by norm_num)⟩

/-- C7: with an empty capture mapping the compositor returns the page
raster unmodified, and the stamper issues no embed call and writes a
document whose content is the original source with no operation applied. -/
theorem C7_empty_mapping (pinfo : PageInfo) (numPages : ℕ) (original : String) :
    composited_page_image [] pinfo = Image.base pinfo.b64 ∧
    stamp_multiple_into_pdf numPages original [] FIELDS = .ok ⟨original, []⟩ := by
  constructor
  · unfold composited_page_image
    have h : ∀ (fs : List Field) (acc : Image), fs.foldl (compStep [] pinfo) acc = acc := by
      intro fs
      induction fs with
      | nil => intro acc; rfl
      | cons g gs ih =>
        intro acc
        rw [List.foldl_cons, compStep_nil]
        exact ih acc
    exact h FIELDS _
  · unfold stamp_multiple_into_pdf
    rw [stampFold_nil]

/-- C8: a capture entry whose key matches no field in the registry is
ignored by both the compositor and the stamper: adding it to the mapping
changes neither component's output, and neither component errors because
of it. -/
theorem C8_unknown_key_ignored (pinfo : PageInfo) (numPages : ℕ) (original : String)
    (values : Values) (k : String) (v : PngBytes)
    (hk : ∀ f ∈ FIELDS, f.key ≠ k) :
    composited_page_image (insertVal values k v) pinfo =
      composited_page_image values pinfo ∧
    stamp_multiple_into_pdf numPages original (insertVal values k v) FIELDS =
      stamp_multiple_into_pdf numPages original values FIELDS := by
  have hl : ∀ f ∈ FIELDS, lookupVal (insertVal values k v) f.key = lookupVal values f.key :=
    fun f hf => lookupVal_insertVal_ne values k f.key v (hk f hf)
  constructor
  · unfold composited_page_image
    exact foldl_compStep_congr _ _ pinfo FIELDS hl _
  · unfold stamp_multiple_into_pdf
    rw [stampFold_congr _ _ numPages FIELDS hl]

/-- Witness for C8: a `"ghost"` capture entry, matching no registry
field, leaves both the composited preview and the stamped document
unchanged. -/
theorem C8_unknown_key_ignored_witness :
    (∀ f ∈ FIELDS, f.key ≠ "ghost") ∧
    (composited_page_image (insertVal [] "ghost" (PngBytes.raw "g")) ⟨1, "bg", 842, 2⟩ =
       composited_page_image [] ⟨1, "bg", 842, 2⟩ ∧
     stamp_multiple_into_pdf 1 "doc" (insertVal [] "ghost" (PngBytes.raw "g")) FIELDS =
       stamp_multiple_into_pdf 1 "doc" [] FIELDS) := by
  have hk : ∀ f ∈ FIELDS, f.key ≠ "ghost" := by
    intro f hf
    simp only [FIELDS, List.mem_cons, List.not_mem_nil, or_false] at hf
    rcases hf with rfl | rfl | rfl | rfl | rfl | rfl <;> decide
  exact ⟨hk,
    C8_unknown_key_ignored ⟨1, "bg", 842, 2⟩ 1 "doc" [] "ghost" (PngBytes.raw "g") hk⟩

/-- C10 fails as stated: `load_data` does not return a frame for every
CSV.  For a CSV whose 담당자 column is entirely missing,
`dropna(axis=1, how='all')` removes the column and the later
`df['담당자'].fillna` raises a `KeyError` out of `load_data`, so no frame
is returned at all. -/
theorem C10_counterexample :
    load_data (fun _ => some ⟨2024, 1, 2⟩)
      [⟨some "2024-01-02", none, some "A", some "B"⟩] = .error () := rfl

/-- C10 (amended): whenever `load_data` does return a frame (each of the
four used columns has at least one present raw value), every returned
row carries a successfully parsed 날짜 value originating from some raw
row, its 월 column equals the month of that 날짜, and the 담당자,
보호구분 and 상담유형 columns contain no missing values (missing cells
having been replaced by the defaults). -/
theorem C10_amended_clean_invariants (parse : String → Option Date)
    (rows : List RawRow) (out : List OutRow)
    (hok : load_data parse rows = .ok out) (r : OutRow) (hr : r ∈ out) :
    (∃ raw ∈ rows, ∃ s, raw.date = some s ∧ parse s = some r.date) ∧
    r.month = r.date.month ∧
    r.manager ≠ none ∧ r.protect ≠ none ∧ r.counsel ≠ none := by
  unfold load_data at hok
  split_ifs at hok
  simp only [Except.ok.injEq] at hok
  subst hok
  obtain ⟨raw, hraw, hclean⟩ := List.mem_filterMap.mp hr
  obtain ⟨rd, rm, rp, rc⟩ := raw
  cases rd with
  | none => simp [cleanRow] at hclean
  | some s =>
    cases hp : parse s with
    | none => simp [cleanRow, hp] at hclean
    | some d =>
      simp only [cleanRow, hp, Option.some.injEq] at hclean
      subst hclean
      refine ⟨⟨⟨some s, rm, rp, rc⟩, hraw, s, rfl, hp⟩, rfl, ?_, ?_, ?_⟩
      · cases rm <;> simp
      · cases rp <;> simp
      · cases rc <;> simp

/-- Witness for the amended C10 on a one-row CSV with every column
present. -/
theorem C10_amended_clean_invariants_witness :
    load_data (fun s => if s = "2024-03-05" then some ⟨2024, 3, 5⟩ else none)
      [⟨some "2024-03-05", some "김", some "P", some "C"⟩] =
      .ok [⟨⟨2024, 3, 5⟩, 3, some "김", some "P", some "C"⟩] ∧
    (⟨⟨2024, 3, 5⟩, 3, some "김", some "P", some "C"⟩ : OutRow) ∈
      [(⟨⟨2024, 3, 5⟩, 3, some "김", some "P", some "C"⟩ : OutRow)] ∧
    ((∃ raw ∈ [(⟨some "2024-03-05", some "김", some "P", some "C"⟩ : RawRow)], ∃ s,
        raw.date = some s ∧
        (if s = "2024-03-05" then some (⟨2024, 3, 5⟩ : Date) else none) =
          some (⟨⟨2024, 3, 5⟩, 3, some "김", some "P", some "C"⟩ : OutRow).date) ∧
     (⟨⟨2024, 3, 5⟩, 3, some "김", some "P", some "C"⟩ : OutRow).month =
       (⟨⟨2024, 3, 5⟩, 3, some "김", some "P", some "C"⟩ : OutRow).date.month ∧
     (⟨⟨2024, 3, 5⟩, 3, some "김", some "P", some "C"⟩ : OutRow).manager ≠ none ∧
     (⟨⟨2024, 3, 5⟩, 3, some "김", some "P", some "C"⟩ : OutRow).protect ≠ none ∧
     (⟨⟨2024, 3, 5⟩, 3, some "김", some "P", some "C"⟩ : OutRow).counsel ≠ none) :=
  ⟨rfl, List.mem_singleton.mpr rfl,
   C10_amended_clean_invariants
     (fun s => if s = "2024-03-05" then some ⟨2024, 3, 5⟩ else none)
     [⟨some "2024-03-05", some "김", some "P", some "C"⟩]
     [⟨⟨2024, 3, 5⟩, 3, some "김", some "P", some "C"⟩] rfl
     ⟨⟨2024, 3, 5⟩, 3, some "김", some "P", some "C"⟩ (List.mem_singleton.mpr rfl)⟩

end App
